import Mathlib

/-!
Verification of the stima scraper (src/stima/scraper.py, src/stima/exceptions.py).

The development shallowly embeds the Python code:
* HTML documents parsed by BeautifulSoup are modelled as a tree of `Node`s;
  the structural lookups `find`, `find_all`, `.string`, `.get_text`, `.get`
  follow bs4 semantics (a `find` on a tag searches its descendants, a `find`
  on the soup searches every node of the document; `.string` is the unique
  string of a single-child chain, `None` otherwise).
* The network is a pure function `String → HttpResponse`; parsing is an
  abstract collaborator `String → List Node`.
* Python exceptions become an error type `ScrapeErr`; the generator functions
  return the list of records yielded before termination, the lines printed,
  and the terminal error, if any.
* The recursive pagination walker is given explicit fuel; every theorem about
  it supplies enough fuel for the page chain it hypothesises.
-/

set_option autoImplicit false

namespace Stima

/-- A parsed HTML node: either a text node or an element with a tag name,
attributes and children.  Attribute values are kept as the flat strings of the
markup (bs4 multi-valued attributes such as `rel` are modelled by their
space-joined form). -/
inductive Node where
  | text (s : String)
  | elem (tag : String) (attrs : List (String × String)) (children : List Node)

mutual

/-- All nodes of the subtree rooted at `n`, in document (pre-)order,
including `n` itself. -/
def Node.allNodes : Node → List Node
  | .text s => [.text s]
  | .elem t a cs => .elem t a cs :: allNodesList cs

/-- All nodes of a forest, in document order. -/
def allNodesList : List Node → List Node
  | [] => []
  | n :: ns => n.allNodes ++ allNodesList ns

end

/-- The descendants of a node (itself excluded), in document order. -/
def Node.subnodes : Node → List Node
  | .text _ => []
  | .elem _ _ cs => allNodesList cs

/-- `tag.get(key)`: attribute lookup on an element, `none` when absent or when
the node is a text node. -/
def Node.attr : Node → String → Option String
  | .text _, _ => none
  | .elem _ attrs _, key => (attrs.find? (fun p => p.1 == key)).map (·.2)

/-- Split a character list at every space, keeping empty pieces, as
`str.split(' ')` does. -/
def splitOnSpaceAux : List Char → List Char → List String
  | [], acc => [String.mk acc.reverse]
  | c :: cs, acc =>
      if c == ' ' then String.mk acc.reverse :: splitOnSpaceAux cs []
      else splitOnSpaceAux cs (c :: acc)

/-- Split a string on spaces (the space-separated class list of a `class`
attribute). -/
def splitOnSpace (s : String) : List String :=
  splitOnSpaceAux s.data []

/-- Does the element carry `c` among its CSS classes (the `class` attribute
split on spaces), as bs4 `class_=c` matching does? -/
def Node.hasClass (n : Node) (c : String) : Bool :=
  match n.attr "class" with
  | none => false
  | some v => (splitOnSpace v).contains c

/-- Is the node an element with the given tag name? -/
def Node.isTag (n : Node) (t : String) : Bool :=
  match n with
  | .text _ => false
  | .elem tag _ _ => tag == t

/-- bs4 `tag.find(...)` : first descendant satisfying the filter. -/
def Node.findIn (n : Node) (p : Node → Bool) : Option Node :=
  n.subnodes.find? p

/-- bs4 `tag.find_all(...)` : every descendant satisfying the filter, in
document order. -/
def Node.findAllIn (n : Node) (p : Node → Bool) : List Node :=
  n.subnodes.filter p

/-- bs4 `soup.find(...)` : first node of the whole document satisfying the
filter. -/
def soupFind (doc : List Node) (p : Node → Bool) : Option Node :=
  (allNodesList doc).find? p

mutual

/-- bs4 `tag.get_text()` : the concatenation of every string descendant, in
document order. -/
def Node.getText : Node → String
  | .text s => s
  | .elem _ _ cs => getTextList cs

/-- `get_text` over a forest. -/
def getTextList : List Node → String
  | [] => ""
  | n :: ns => n.getText ++ getTextList ns

end

/-- bs4 `tag.string` : if the node is a string, itself; if it has exactly one
child, that child's `.string`; otherwise `None`. -/
def Node.strProp : Node → Option String
  | .text s => some s
  | .elem _ _ [c] => c.strProp
  | .elem _ _ _ => none

/-! Filters used by the scraper. -/

/-- `soup.find("main")`. -/
def isMain (n : Node) : Bool := n.isTag "main"

/-- `find_all("h2", class_='generictitle')`. -/
def isGenericTitle (n : Node) : Bool := n.isTag "h2" && n.hasClass "generictitle"

/-- `soup.find("ul", class_="pagination")`. -/
def isPaginationUl (n : Node) : Bool := n.isTag "ul" && n.hasClass "pagination"

/-- `find("a", attrs={"rel": "next"})`. -/
def isRelNext (n : Node) : Bool := n.isTag "a" && n.attr "rel" == some "next"

/-- `h2_tag.a`: an anchor element. -/
def isAnchor (n : Node) : Bool := n.isTag "a"

/-- `soup.find("div", class_="attachments")`. -/
def isAttachmentsDiv (n : Node) : Bool := n.isTag "div" && n.hasClass "attachments"

/-- `find_all("a", class_="docicon")`. -/
def isDocicon (n : Node) : Bool := n.isTag "a" && n.hasClass "docicon"

/-- `soup.find("div", class_="genericintro")`. -/
def isGenericIntro (n : Node) : Bool := n.isTag "div" && n.hasClass "genericintro"

/-- `find_all("a", class_="download")`. -/
def isDownload (n : Node) : Bool := n.isTag "a" && n.hasClass "download"

/-! ## HTTP model -/

/-- The response `requests.get` produces for a URL.  `effectiveUrl` is
`response.url`, i.e. the URL actually fetched after redirects; `text` is the
decoded body used for HTML pages; `body` is the byte stream used for binary
downloads, delivered by `iter_content`. -/
structure HttpResponse where
  effectiveUrl : String
  statusCode : Nat
  reason : String
  headers : List (String × String)
  text : String
  body : List Nat
deriving Repr, DecidableEq

/-- The network as a pure collaborator: each URL has a fixed response. -/
def Net : Type := String → HttpResponse

/-- An HTML parser as an abstract collaborator (`BeautifulSoup(content,
"html.parser")`). -/
def HtmlParser : Type := String → List Node

/-- The errors the scraper can terminate with.  `requestError` and
`wrongContentType` embed `stima.exceptions`; `keyError` is Python's `KeyError`
from `response.headers['Content-Type']`; `attributeError` is Python's
`AttributeError` from calling a method on `None`; `indexError` is Python's
`IndexError` from `url.rsplit('/', 1)[1]` on a slashless URL; `fuelOut` is the
modelling artefact for exhausting the walker's fuel. -/
inductive ScrapeErr where
  | requestError (url : String) (code : Nat) (reason : String)
  | wrongContentType (message : String) (url : String) (contentType : String)
  | keyError (key : String)
  | attributeError (method : String)
  | indexError
  | fuelOut
deriving Repr, DecidableEq

/-- `str(error)` as printed by `print("Error: {}".format(error))`:
`RequestError.__str__` formats `"{reason} ({code}) on {url}"`;
`WrongContentType` inherits `Exception.__str__`, which is its message. -/
def ScrapeErr.toStr : ScrapeErr → String
  | .requestError url code reason =>
      reason ++ " (" ++ toString code ++ ") on " ++ url
  | .wrongContentType message _ _ => message
  | .keyError key => key
  | .attributeError m => m
  | .indexError => "index out of range"
  | .fuelOut => "fuel out"

/-- ASCII lower-casing of one character (HTTP header names are ASCII). -/
def lowerChar (c : Char) : Char :=
  if c.toNat ≥ 65 && c.toNat ≤ 90 then Char.ofNat (c.toNat + 32) else c

/-- ASCII lower-casing of a string. -/
def asciiLower (s : String) : String :=
  String.mk (s.data.map lowerChar)

/-- `requests` stores headers in a case-insensitive dict; model the lookup
`response.headers[key]` as case-insensitive, `none` when the header is
absent. -/
def headerLookup (headers : List (String × String)) (key : String) : Option String :=
  (headers.find? (fun p => asciiLower p.1 == asciiLower key)).map (·.2)

/-- `make_request(url)`: GET the URL, raise
`RequestError(response.url, response.status_code, response.reason)` unless the
status is 200, otherwise return the decoded body. -/
def make_request (net : Net) (url : String) : Except ScrapeErr String :=
  let response := net url
  if response.statusCode ≠ 200 then
    .error (.requestError response.effectiveUrl response.statusCode response.reason)
  else
    .ok response.text

/-! ## Temporary files and chunked writing -/

/-- A scoped temporary file: its contents and the current seek position. -/
structure TempFile where
  contents : List Nat
  pos : Nat
deriving Repr, DecidableEq

/-- `file.write(chunk)` at the current position (overwrite then extend, as a
POSIX file write does; the downloader only ever writes at the end). -/
def TempFile.write (f : TempFile) (chunk : List Nat) : TempFile :=
  { contents :=
      f.contents.take f.pos ++ chunk ++ f.contents.drop (f.pos + chunk.length),
    pos := f.pos + chunk.length }

/-- `file.seek(0)`. -/
def TempFile.seekStart (f : TempFile) : TempFile :=
  { contents := f.contents, pos := 0 }

/-- Write a list of chunks one after the other, as the
`for chunk in response.iter_content(...)` loop does. -/
def writeChunks (f : TempFile) : List (List Nat) → TempFile
  | [] => f
  | c :: cs => writeChunks (f.write c) cs

/-- `response.iter_content(chunk_size=n)`: split the byte stream into
successive chunks of `n` bytes, the last possibly shorter.  The fuel argument
of the auxiliary function is the stream length, enough for any positive `n`. -/
def chunksOfAux (n : Nat) : Nat → List Nat → List (List Nat)
  | 0, _ => []
  | _, [] => []
  | fuel + 1, l => l.take n :: chunksOfAux n fuel (l.drop n)

/-- The chunks of `l`, each of size `n` except a shorter final one. -/
def chunksOf (n : Nat) (l : List Nat) : List (List Nat) :=
  chunksOfAux n l.length l

/-- The characters after the last `/`, if any `/` occurs. -/
def lastSegmentAux : List Char → Option (List Char)
  | [] => none
  | c :: cs =>
      match lastSegmentAux cs with
      | some seg => some seg
      | none => if c == '/' then some cs else none

/-- `url.rsplit('/', 1)[1]`: the part of the URL after the last `/`; `none`
models the `IndexError` Python raises when the URL has no `/` at all (the
split produces a single element and index 1 is out of range). -/
def lastSegment (url : String) : Option String :=
  (lastSegmentAux url.data).map String.mk

/-- `download_pdf(url)`: derive the filename from the URL, GET the URL
(streaming), raise `RequestError(url, ...)` — the *argument* URL — unless the
status is 200, look up the declared `Content-Type` (a `KeyError` when absent),
raise `WrongContentType("File is not a PDF", response.url, content_type)`
unless it is exactly `application/pdf`, then write the stream to a fresh
temporary file in 4096-byte chunks and rewind it. -/
def download_pdf (net : Net) (url : String) : Except ScrapeErr (String × TempFile) :=
  match lastSegment url with
  | none => .error .indexError
  | some pdf_filename =>
    let response := net url
    if response.statusCode ≠ 200 then
      .error (.requestError url response.statusCode response.reason)
    else
      match headerLookup response.headers "Content-Type" with
      | none => .error (.keyError "Content-Type")
      | some content_type =>
        if content_type ≠ "application/pdf" then
          .error (.wrongContentType "File is not a PDF" response.effectiveUrl content_type)
        else
          let pdf_file_temp := writeChunks ⟨[], 0⟩ (chunksOf 4096 response.body)
          .ok (pdf_filename, pdf_file_temp.seekStart)

/-! ## The listing walker (`scrape_interruptions`) -/

/-- The dict yielded per heading: `{"title": h2_tag.string,
"link": h2_tag.a.get('href')}`.  Both fields are optional because `.string`
and `.get` can return `None`. -/
structure ListingRecord where
  title : Option String
  link : Option String
deriving Repr, DecidableEq

/-- What a full consumption of a generator observes: the records yielded, the
lines printed, and the error that ended it (`none` for a clean stop). -/
structure WalkResult where
  records : List ListingRecord
  logs : List String
  err : Option ScrapeErr
deriving Repr, DecidableEq

/-- The `for h2_tag in ...` loop body: `h2_tag.a` is the first anchor
descendant, and on a heading without one, Python raises `AttributeError`
(`None.get`), ending the generator after the records already yielded. -/
def emitRecords : List Node → List ListingRecord × Option ScrapeErr
  | [] => ([], none)
  | h :: hs =>
    match h.findIn isAnchor with
    | none => ([], some (.attributeError "get"))
    | some a =>
      let rest := emitRecords hs
      ({ title := h.strProp, link := a.attr "href" } :: rest.1, rest.2)

/-- `scrape_interruptions(url)`: fetch the page (printing and re-raising on
`RequestError`), yield one record per `generictitle` heading under `main`,
then follow the pagination `rel=next` anchor recursively.  The unguarded
`soup.find("main").find_all(...)` and `soup.find("ul", class_="pagination")
.find(...)` raise `AttributeError` when the container is absent.  `fuel`
bounds the pagination depth of the model. -/
def scrape_interruptions (net : Net) (parse : HtmlParser) :
    Nat → String → WalkResult
  | 0, _ => ⟨[], [], some .fuelOut⟩
  | fuel + 1, url =>
    match make_request net url with
    | .error e => ⟨[], ["Error: " ++ e.toStr], some e⟩
    | .ok content =>
      let soup := parse content
      match soupFind soup isMain with
      | none => ⟨[], [], some (.attributeError "find_all")⟩
      | some mainTag =>
        let (recs, recErr) := emitRecords (mainTag.findAllIn isGenericTitle)
        match recErr with
        | some e => ⟨recs, [], some e⟩
        | none =>
          match soupFind soup isPaginationUl with
          | none => ⟨recs, [], some (.attributeError "find")⟩
          | some ul =>
            match ul.findIn isRelNext with
            | none => ⟨recs, [], none⟩
            | some aTag =>
              match aTag.attr "href" with
              | none => ⟨recs, [], some (.attributeError "missing-schema")⟩
              | some nextUrl =>
                let rest := scrape_interruptions net parse fuel nextUrl
                ⟨recs ++ rest.records, rest.logs, rest.err⟩

/-! ## The attachment extractor (`scrape_interruption_attachments`) -/

/-- The dict yielded per successfully downloaded attachment. -/
structure AttachmentRecord where
  parent_link : String
  pdf_filename : String
  pdf_file_temp : TempFile
  download_link_text : String
  download_link : String
deriving Repr, DecidableEq

/-- A full consumption of the attachment generator. -/
structure AttachResult where
  records : List AttachmentRecord
  logs : List String
  err : Option ScrapeErr
deriving Repr, DecidableEq

/-- Is the error one the extractor's `except (RequestError, WrongContentType)`
clause catches? -/
def catchable : ScrapeErr → Bool
  | .requestError _ _ _ => true
  | .wrongContentType _ _ _ => true
  | _ => false

/-- The `for a_tag in a_tags` loop: read the candidate's text and `href`, call
`download_pdf`; a caught failure is printed and skipped, any other error ends
the generator; an anchor without `href` passes `None` to `download_pdf`,
where `None.rsplit` raises `AttributeError`. -/
def processCandidates (net : Net) (parent : String) : List Node → AttachResult
  | [] => ⟨[], [], none⟩
  | a :: rest =>
    match a.attr "href" with
    | none => ⟨[], [], some (.attributeError "rsplit")⟩
    | some download_link =>
      match download_pdf net download_link with
      | .error e =>
        if catchable e then
          let r := processCandidates net parent rest
          ⟨r.records, ("Error: " ++ e.toStr) :: r.logs, r.err⟩
        else ⟨[], [], some e⟩
      | .ok (pdf_filename, pdf_file_temp) =>
        let r := processCandidates net parent rest
        ⟨{ parent_link := parent, pdf_filename := pdf_filename,
           pdf_file_temp := pdf_file_temp,
           download_link_text := a.getText,
           download_link := download_link } :: r.records,
         r.logs, r.err⟩

/-- The candidate anchors of a detail page: the `docicon` anchors of the
`attachments` div, then the `download` anchors of the `genericintro` div; an
absent div contributes nothing (both lookups are guarded by `if ...:`). -/
def candidatesOf (soup : List Node) : List Node :=
  (match soupFind soup isAttachmentsDiv with
   | some d => d.findAllIn isDocicon
   | none => []) ++
  (match soupFind soup isGenericIntro with
   | some d => d.findAllIn isDownload
   | none => [])

/-- `scrape_interruption_attachments(url)`: fetch the detail page (printing
and re-raising on `RequestError`), collect the candidate anchors of both
regions, and run the download loop. -/
def scrape_interruption_attachments (net : Net) (parse : HtmlParser)
    (url : String) : AttachResult :=
  match make_request net url with
  | .error e => ⟨[], ["Error: " ++ e.toStr], some e⟩
  | .ok content => processCandidates net url (candidatesOf (parse content))

/-! ## Page-level views used by the theorems -/

/-- The parsed document of a URL (ignoring the status check). -/
def soupOf (net : Net) (parse : HtmlParser) (url : String) : List Node :=
  parse (net url).text

/-- The qualifying headings of a page: the `generictitle` `h2`s under `main`
(empty when `main` is absent — the walker itself errors in that case). -/
def headingsOf (soup : List Node) : List Node :=
  match soupFind soup isMain with
  | some m => m.findAllIn isGenericTitle
  | none => []

/-- The `rel=next` anchor inside the pagination list, if both exist. -/
def relNextOf (soup : List Node) : Option Node :=
  (soupFind soup isPaginationUl).bind (·.findIn isRelNext)

/-- The `href` of the `rel=next` anchor, if present. -/
def nextHrefOf (soup : List Node) : Option String :=
  (relNextOf soup).bind (·.attr "href")

/-- The record the walker emits for one heading. -/
def recordOf (h : Node) : ListingRecord :=
  { title := h.strProp, link := (h.findIn isAnchor).bind (·.attr "href") }

/-- The records of one listing page, in document order of its headings. -/
def pageRecords (soup : List Node) : List ListingRecord :=
  (headingsOf soup).map recordOf

/-- A listing page the walker can process without raising: the fetch returns
200, `main` and the pagination `ul` exist, and every qualifying heading
contains an anchor. -/
def pageWellFormed (net : Net) (parse : HtmlParser) (url : String) : Bool :=
  (net url).statusCode == 200 &&
  (soupFind (soupOf net parse url) isMain).isSome &&
  (headingsOf (soupOf net parse url)).all (fun h => (h.findIn isAnchor).isSome) &&
  (soupFind (soupOf net parse url) isPaginationUl).isSome

/-- A terminating pagination chain: each page is well formed and its
`rel=next` anchor links to the next URL of the list; the last page has no
`rel=next` anchor. -/
def goodChain (net : Net) (parse : HtmlParser) : List String → Bool
  | [] => true
  | [u] => pageWellFormed net parse u && (relNextOf (soupOf net parse u)).isNone
  | u :: v :: rest =>
      pageWellFormed net parse u &&
      nextHrefOf (soupOf net parse u) == some v &&
      goodChain net parse (v :: rest)

/-- A chain whose final page's fetch fails: each earlier page is well formed
and links to the next, and the last URL's response is not 200. -/
def badChain (net : Net) (parse : HtmlParser) : List String → Bool
  | [] => false
  | [u] => (net u).statusCode != 200
  | u :: v :: rest =>
      pageWellFormed net parse u &&
      nextHrefOf (soupOf net parse u) == some v &&
      badChain net parse (v :: rest)

/-- The `RequestError` `make_request` raises for a failing URL. -/
def failErr (net : Net) (u : String) : ScrapeErr :=
  .requestError (net u).effectiveUrl (net u).statusCode (net u).reason

/-- A node whose content is a single chain of tags ending in one string: the
exact situation in which bs4 `.string` is that string rather than `None`. -/
def Node.isSingleString : Node → Bool
  | .text _ => true
  | .elem _ _ [c] => c.isSingleString
  | .elem _ _ _ => false

/-! ## Concrete fixture worlds

A small site used to witness the theorems and refute the failing claims:
listing pages `p1 → p2` (a good two-page chain), `p3` (no pagination list),
`p4` (no `main`), `p8` (a mixed-content heading), `pb1 → bad` (a chain whose
second fetch fails), and detail pages `d1`, `d2` with PDF candidates. -/

/-- `<a href=...>text</a>` -/
def fixAnchor (href t : String) : Node := .elem "a" [("href", href)] [.text t]

/-- A qualifying listing heading wrapping a single anchor. -/
def fixHeading (href t : String) : Node :=
  .elem "h2" [("class", "generictitle")] [fixAnchor href t]

/-- `<a rel=next href=...>` -/
def fixNextAnchor (href : String) : Node :=
  .elem "a" [("rel", "next"), ("href", href)] [.text "Next"]

/-- `<ul class=pagination>...</ul>` -/
def fixPagination (cs : List Node) : Node :=
  .elem "ul" [("class", "pagination")] cs

/-- `<a class=docicon href=...>` -/
def docIconAnchor (href t : String) : Node :=
  .elem "a" [("class", "docicon"), ("href", href)] [.text t]

/-- `<a class=download href=...>` -/
def downloadAnchor (href t : String) : Node :=
  .elem "a" [("class", "download"), ("href", href)] [.text t]

/-- Listing page 1: two headings, next link to `p2`. -/
def doc1 : List Node :=
  [.elem "html" []
      [.elem "main" [] [fixHeading "l1" "T1", fixHeading "l2" "T2"],
       fixPagination [fixNextAnchor "p2"]]]

/-- Listing page 2: one heading, a pagination list without a `rel=next`
anchor. -/
def doc2 : List Node :=
  [.elem "main" [] [fixHeading "l3" "T3"],
   fixPagination [.elem "a" [("href", "p1")] [.text "prev"]]]

/-- A listing page with no pagination list at all. -/
def doc3 : List Node := [.elem "main" [] [fixHeading "l4" "T4"]]

/-- A page with no `main` region. -/
def doc4 : List Node := [.elem "div" [] [.text "no main here"]]

/-- A listing page whose heading has mixed content (text then anchor), so
its bs4 `.string` is `None` while its text content is `"Foo Bar"`. -/
def doc8 : List Node :=
  [.elem "main" []
      [.elem "h2" [("class", "generictitle")]
          [.text "Foo ", fixAnchor "x" "Bar"]],
   fixPagination []]

/-- A listing page whose next link points at the failing URL `bad`. -/
def docB1 : List Node :=
  [.elem "main" [] [fixHeading "lb" "TB"],
   fixPagination [fixNextAnchor "bad"]]

/-- Detail page 1: an attachments region with a non-PDF candidate then a good
one, and a generic-intro region with one more good candidate. -/
def docD1 : List Node :=
  [.elem "div" [("class", "attachments")]
      [docIconAnchor "site/bad.html" "Bad", docIconAnchor "site/ok1.pdf" "Good"],
   .elem "div" [("class", "genericintro")]
      [downloadAnchor "site/ok2.pdf" "Archive"]]

/-- Detail page 2: a good candidate, then one whose response has no
`Content-Type` header, then another good one. -/
def docD2 : List Node :=
  [.elem "div" [("class", "attachments")]
      [docIconAnchor "site/ok1.pdf" "Good",
       docIconAnchor "site/nohdr.pdf" "NoHeader",
       docIconAnchor "site/ok2.pdf" "Good2"]]

/-- The fixture parser, keyed on page contents. -/
def fixParse : HtmlParser := fun content =>
  if content == "L1" then doc1
  else if content == "L2" then doc2
  else if content == "L3" then doc3
  else if content == "L4" then doc4
  else if content == "L8" then doc8
  else if content == "LB1" then docB1
  else if content == "D1" then docD1
  else if content == "D2" then docD2
  else []

/-- A 200 HTML page response. -/
def okPage (u text : String) : HttpResponse :=
  ⟨u, 200, "OK", [], text, []⟩

/-- The fixture network. -/
def fixNet : Net := fun u =>
  if u == "p1" then okPage "p1" "L1"
  else if u == "p2" then okPage "p2" "L2"
  else if u == "p3" then okPage "p3" "L3"
  else if u == "p4" then okPage "p4" "L4"
  else if u == "p8" then okPage "p8" "L8"
  else if u == "pb1" then okPage "pb1" "LB1"
  else if u == "bad" then ⟨"bad-eff", 404, "Not Found", [], "", []⟩
  else if u == "d1" then okPage "d1" "D1"
  else if u == "d2" then okPage "d2" "D2"
  else if u == "site/ok1.pdf" then
    ⟨"site/ok1.pdf", 200, "OK", [("Content-Type", "application/pdf")], "", [1, 2, 3]⟩
  else if u == "site/ok2.pdf" then
    ⟨"site/ok2.pdf", 200, "OK", [("Content-Type", "application/pdf")], "", []⟩
  else if u == "site/bad.html" then
    ⟨"site/bad-eff.html", 200, "OK", [("Content-Type", "text/html")], "", [9]⟩
  else if u == "site/err.pdf" then
    ⟨"site/err-eff.pdf", 404, "Not Found", [], "", []⟩
  else if u == "site/nohdr.pdf" then
    ⟨"site/nohdr.pdf", 200, "OK", [], "", [7]⟩
  else if u == "redir/a.pdf" then
    ⟨"redir/b.pdf", 404, "Not Found", [], "", []⟩
  else ⟨u, 404, "Not Found", [], "", []⟩


/-! ## Basic lemmas about the fetcher and downloader -/

theorem make_request_ok {net : Net} {url : String}
    (h : (net url).statusCode = 200) :
    make_request net url = .ok (net url).text := by
  simp [make_request, h]

theorem make_request_err {net : Net} {url : String}
    (h : (net url).statusCode ≠ 200) :
    make_request net url = .error (failErr net url) := by
  simp [make_request, h, failErr]

theorem download_pdf_status_err {net : Net} {url seg : String}
    (hseg : lastSegment url = some seg)
    (h : (net url).statusCode ≠ 200) :
    download_pdf net url
      = .error (.requestError url (net url).statusCode (net url).reason) := by
  unfold download_pdf
  rw [hseg]
  simp [h]

theorem download_pdf_keyErr {net : Net} {url seg : String}
    (hseg : lastSegment url = some seg)
    (h200 : (net url).statusCode = 200)
    (hhdr : headerLookup (net url).headers "Content-Type" = none) :
    download_pdf net url = .error (.keyError "Content-Type") := by
  unfold download_pdf
  rw [hseg]
  simp [h200, hhdr]

theorem download_pdf_wrongCT {net : Net} {url seg ct : String}
    (hseg : lastSegment url = some seg)
    (h200 : (net url).statusCode = 200)
    (hhdr : headerLookup (net url).headers "Content-Type" = some ct)
    (hct : ct ≠ "application/pdf") :
    download_pdf net url
      = .error
          (.wrongContentType "File is not a PDF" (net url).effectiveUrl ct) := by
  unfold download_pdf
  rw [hseg]
  simp [h200, hhdr, hct]

theorem writeChunks_eq (cs : List (List Nat)) :
    ∀ f : TempFile, f.pos = f.contents.length →
      writeChunks f cs
        = ⟨f.contents ++ cs.flatten, (f.contents ++ cs.flatten).length⟩ := by
  induction cs with
  | nil =>
    intro f hf
    cases f with
    | mk contents pos => simp_all [writeChunks]
  | cons c cs ih =>
    intro f hf
    have hwrite : f.write c = ⟨f.contents ++ c, (f.contents ++ c).length⟩ := by
      cases f with
      | mk contents pos =>
        simp_all [TempFile.write]
    calc writeChunks f (c :: cs) = writeChunks (f.write c) cs := rfl
      _ = ⟨(f.contents ++ c) ++ cs.flatten,
            ((f.contents ++ c) ++ cs.flatten).length⟩ := by
            rw [hwrite, ih ⟨f.contents ++ c, (f.contents ++ c).length⟩ rfl]
      _ = ⟨f.contents ++ (c :: cs).flatten,
            (f.contents ++ (c :: cs).flatten).length⟩ := by
            simp

theorem chunksOfAux_flatten {n : Nat} (hn : 0 < n) :
    ∀ fuel l, l.length ≤ fuel → (chunksOfAux n fuel l).flatten = l := by
  intro fuel
  induction fuel with
  | zero =>
    intro l hl
    have hnil : l = [] := List.eq_nil_of_length_eq_zero (Nat.le_zero.mp hl)
    simp [hnil, chunksOfAux]
  | succ fuel ih =>
    intro l hl
    match l with
    | [] => simp [chunksOfAux]
    | x :: xs =>
      have hdrop : ((x :: xs).drop n).length ≤ fuel := by
        simp only [List.length_drop, List.length_cons]
        simp only [List.length_cons] at hl
        omega
      simp only [chunksOfAux, List.flatten_cons, ih _ hdrop]
      exact List.take_append_drop n (x :: xs)

theorem chunksOf_flatten {n : Nat} (hn : 0 < n) (l : List Nat) :
    (chunksOf n l).flatten = l :=
  chunksOfAux_flatten hn l.length l (Nat.le_refl _)

theorem chunksOfAux_sizes (n : Nat) :
    ∀ fuel l c, c ∈ chunksOfAux n fuel l → c.length ≤ n := by
  intro fuel
  induction fuel with
  | zero => intro l c hc; simp [chunksOfAux] at hc
  | succ fuel ih =>
    intro l c hc
    match l with
    | [] => simp [chunksOfAux] at hc
    | x :: xs =>
      simp only [chunksOfAux, List.mem_cons] at hc
      rcases hc with h | h
      · subst h; simp [List.length_take]
      · exact ih _ _ h

theorem download_pdf_ok {net : Net} {url seg : String}
    (hseg : lastSegment url = some seg)
    (h200 : (net url).statusCode = 200)
    (hhdr : headerLookup (net url).headers "Content-Type"
              = some "application/pdf") :
    download_pdf net url = .ok (seg, ⟨(net url).body, 0⟩) := by
  unfold download_pdf
  rw [hseg]
  simp only [h200, ne_eq, not_true_eq_false, if_false, hhdr, reduceIte]
  rw [writeChunks_eq _ ⟨[], 0⟩ rfl]
  simp [TempFile.seekStart, chunksOf_flatten (by norm_num : (0:Nat) < 4096)]

/-! ## Lemmas about the listing walker -/

theorem emitRecords_eq_map {hs : List Node}
    (h : ∀ n ∈ hs, (n.findIn isAnchor).isSome = true) :
    emitRecords hs = (hs.map recordOf, none) := by
  induction hs with
  | nil => rfl
  | cons a as ih =>
    obtain ⟨x, hx⟩ := Option.isSome_iff_exists.mp (h a (List.mem_cons_self a as))
    have ihh := ih (fun n hn => h n (List.mem_cons_of_mem _ hn))
    simp [emitRecords, hx, ihh, recordOf]

theorem pageWellFormed_parts {net : Net} {parse : HtmlParser} {url : String}
    (h : pageWellFormed net parse url = true) :
    (net url).statusCode = 200 ∧
    (soupFind (soupOf net parse url) isMain).isSome = true ∧
    (∀ n ∈ headingsOf (soupOf net parse url),
        (n.findIn isAnchor).isSome = true) ∧
    (soupFind (soupOf net parse url) isPaginationUl).isSome = true := by
  simp only [pageWellFormed, Bool.and_eq_true, beq_iff_eq,
    List.all_eq_true] at h
  tauto

theorem scrape_fail {net : Net} {parse : HtmlParser} {url : String}
    (fuel : Nat) (h : (net url).statusCode ≠ 200) :
    scrape_interruptions net parse (fuel + 1) url
      = ⟨[], ["Error: " ++ (failErr net url).toStr], some (failErr net url)⟩ := by
  simp only [scrape_interruptions, make_request_err h]

theorem scrape_noMain {net : Net} {parse : HtmlParser} {url : String}
    (fuel : Nat) (h200 : (net url).statusCode = 200)
    (hmain : soupFind (soupOf net parse url) isMain = none) :
    scrape_interruptions net parse (fuel + 1) url
      = ⟨[], [], some (.attributeError "find_all")⟩ := by
  have hsoup : parse (net url).text = soupOf net parse url := rfl
  simp only [scrape_interruptions, make_request_ok h200, hsoup, hmain]

theorem scrape_noPagination {net : Net} {parse : HtmlParser} {url : String}
    (fuel : Nat) (h200 : (net url).statusCode = 200)
    {m : Node} (hmain : soupFind (soupOf net parse url) isMain = some m)
    (hanch : ∀ n ∈ headingsOf (soupOf net parse url),
        (n.findIn isAnchor).isSome = true)
    (hpag : soupFind (soupOf net parse url) isPaginationUl = none) :
    scrape_interruptions net parse (fuel + 1) url
      = ⟨pageRecords (soupOf net parse url), [],
          some (.attributeError "find")⟩ := by
  have hsoup : parse (net url).text = soupOf net parse url := rfl
  have hh : headingsOf (soupOf net parse url) = m.findAllIn isGenericTitle := by
    simp [headingsOf, hmain]
  rw [hh] at hanch
  simp only [scrape_interruptions, make_request_ok h200, hsoup, hmain,
    emitRecords_eq_map hanch, hpag, pageRecords, hh]

theorem scrape_last {net : Net} {parse : HtmlParser} {url : String}
    (fuel : Nat) (hwf : pageWellFormed net parse url = true)
    (hnone : (relNextOf (soupOf net parse url)).isNone = true) :
    scrape_interruptions net parse (fuel + 1) url
      = ⟨pageRecords (soupOf net parse url), [], none⟩ := by
  obtain ⟨h200, hmain, hanch, hpag⟩ := pageWellFormed_parts hwf
  obtain ⟨m, hm⟩ := Option.isSome_iff_exists.mp hmain
  obtain ⟨ul, hul⟩ := Option.isSome_iff_exists.mp hpag
  have hnext : ul.findIn isRelNext = none := by
    rw [Option.isNone_iff_eq_none] at hnone
    simpa [relNextOf, hul] using hnone
  have hsoup : parse (net url).text = soupOf net parse url := rfl
  have hh : headingsOf (soupOf net parse url) = m.findAllIn isGenericTitle := by
    simp [headingsOf, hm]
  rw [hh] at hanch
  simp only [scrape_interruptions, make_request_ok h200, hsoup, hm,
    emitRecords_eq_map hanch, hul, hnext, pageRecords, hh]

theorem scrape_step {net : Net} {parse : HtmlParser} {url v : String}
    (fuel : Nat) (hwf : pageWellFormed net parse url = true)
    (hnext : nextHrefOf (soupOf net parse url) = some v) :
    scrape_interruptions net parse (fuel + 1) url
      = ⟨pageRecords (soupOf net parse url)
            ++ (scrape_interruptions net parse fuel v).records,
          (scrape_interruptions net parse fuel v).logs,
          (scrape_interruptions net parse fuel v).err⟩ := by
  obtain ⟨h200, hmain, hanch, hpag⟩ := pageWellFormed_parts hwf
  obtain ⟨m, hm⟩ := Option.isSome_iff_exists.mp hmain
  obtain ⟨ul, hul⟩ := Option.isSome_iff_exists.mp hpag
  obtain ⟨aTag, hrel, hhref⟩ : ∃ a, relNextOf (soupOf net parse url) = some a
      ∧ a.attr "href" = some v := by
    simpa [nextHrefOf, Option.bind_eq_some] using hnext
  have hfind : ul.findIn isRelNext = some aTag := by
    simpa [relNextOf, hul] using hrel
  have hsoup : parse (net url).text = soupOf net parse url := rfl
  have hh : headingsOf (soupOf net parse url) = m.findAllIn isGenericTitle := by
    simp [headingsOf, hm]
  rw [hh] at hanch
  simp only [scrape_interruptions, make_request_ok h200, hsoup, hm,
    emitRecords_eq_map hanch, hul, hfind, hhref, pageRecords, hh]

/-- The last URL of the chain `u :: rest`. -/
def chainLast (u : String) (rest : List String) : String :=
  rest.getLastD u

theorem goodChain_walk {net : Net} {parse : HtmlParser} :
    ∀ (rest : List String) (u : String) (fuel : Nat),
      goodChain net parse (u :: rest) = true → rest.length + 1 ≤ fuel →
      scrape_interruptions net parse fuel u
        = ⟨((u :: rest).map
              (fun x => pageRecords (soupOf net parse x))).flatten,
            [], none⟩ := by
  intro rest
  induction rest with
  | nil =>
    intro u fuel hchain hfuel
    obtain ⟨f, rfl⟩ : ∃ f, fuel = f + 1 := ⟨fuel - 1, by omega⟩
    simp only [goodChain, Bool.and_eq_true] at hchain
    rw [scrape_last f hchain.1 hchain.2]
    simp
  | cons v rest ih =>
    intro u fuel hchain hfuel
    obtain ⟨f, rfl⟩ : ∃ f, fuel = f + 1 := ⟨fuel - 1, by omega⟩
    simp only [goodChain, Bool.and_eq_true, beq_iff_eq] at hchain
    obtain ⟨⟨hwf, hnext⟩, hrest⟩ := hchain
    have hrest' : goodChain net parse (v :: rest) = true := hrest
    rw [scrape_step f hwf hnext,
      ih v f hrest' (by simpa using Nat.lt_succ_iff.mp (Nat.lt_of_lt_of_le (by simp) hfuel))]
    simp

theorem badChain_walk {net : Net} {parse : HtmlParser} :
    ∀ (rest : List String) (u : String) (fuel : Nat),
      badChain net parse (u :: rest) = true → rest.length + 1 ≤ fuel →
      scrape_interruptions net parse fuel u
        = ⟨(((u :: rest).dropLast).map
              (fun x => pageRecords (soupOf net parse x))).flatten,
            ["Error: " ++ (failErr net (chainLast u rest)).toStr],
            some (failErr net (chainLast u rest))⟩ := by
  intro rest
  induction rest with
  | nil =>
    intro u fuel hchain hfuel
    obtain ⟨f, rfl⟩ : ∃ f, fuel = f + 1 := ⟨fuel - 1, by omega⟩
    simp only [badChain, bne_iff_ne, ne_eq] at hchain
    rw [scrape_fail f hchain]
    simp [chainLast]
  | cons v rest ih =>
    intro u fuel hchain hfuel
    obtain ⟨f, rfl⟩ : ∃ f, fuel = f + 1 := ⟨fuel - 1, by omega⟩
    simp only [badChain, Bool.and_eq_true, beq_iff_eq] at hchain
    obtain ⟨⟨hwf, hnext⟩, hrest⟩ := hchain
    have hrest' : badChain net parse (v :: rest) = true := hrest
    have hlast : chainLast u (v :: rest) = chainLast v rest := by
      simp only [chainLast, List.getLastD_cons]
    rw [scrape_step f hwf hnext,
      ih v f hrest' (by simp at hfuel ⊢; omega), hlast]
    simp

/-! ## Lemmas about the attachment extractor -/

theorem attachments_eq {net : Net} {parse : HtmlParser} {url : String}
    (h200 : (net url).statusCode = 200) :
    scrape_interruption_attachments net parse url
      = processCandidates net url (candidatesOf (soupOf net parse url)) := by
  have hsoup : parse (net url).text = soupOf net parse url := rfl
  simp only [scrape_interruption_attachments, make_request_ok h200, hsoup]

theorem proc_append {net : Net} {parent : String} :
    ∀ (pre rest : List Node),
      (processCandidates net parent pre).err = none →
      processCandidates net parent (pre ++ rest)
        = ⟨(processCandidates net parent pre).records
              ++ (processCandidates net parent rest).records,
            (processCandidates net parent pre).logs
              ++ (processCandidates net parent rest).logs,
            (processCandidates net parent rest).err⟩ := by
  intro pre rest
  induction pre with
  | nil => intro _; simp [processCandidates]
  | cons a pre ih =>
    intro herr
    cases hhref : a.attr "href" with
    | none => exact absurd herr (by simp [processCandidates, hhref])
    | some link =>
      cases hdl : download_pdf net link with
      | error e =>
        cases hc : catchable e with
        | false =>
          exact absurd herr (by simp [processCandidates, hhref, hdl, hc])
        | true =>
          have herr' : (processCandidates net parent pre).err = none := by
            simpa [processCandidates, hhref, hdl, hc] using herr
          simp [processCandidates, hhref, hdl, hc, ih herr', List.cons_append]
      | ok p =>
        have herr' : (processCandidates net parent pre).err = none := by
          simpa [processCandidates, hhref, hdl] using herr
        simp [processCandidates, hhref, hdl, ih herr', List.cons_append]

theorem proc_len {net : Net} {parent : String} :
    ∀ cs : List Node,
      (processCandidates net parent cs).records.length ≤ cs.length
      ∧ ((processCandidates net parent cs).records.length = cs.length ↔
          ∀ a ∈ cs, ∃ l, a.attr "href" = some l
              ∧ (download_pdf net l).isOk = true) := by
  intro cs
  induction cs with
  | nil => simp [processCandidates]
  | cons a cs ih =>
    obtain ⟨ihle, ihiff⟩ := ih
    cases hhref : a.attr "href" with
    | none =>
      refine ⟨by simp [processCandidates, hhref], ?_, ?_⟩
      · intro h; rw [show (processCandidates net parent (a :: cs)).records = []
          from by simp [processCandidates, hhref]] at h; simp at h
      · intro h
        obtain ⟨l, hl, _⟩ := h a (List.mem_cons_self a cs)
        rw [hhref] at hl; cases hl
    | some link =>
      cases hdl : download_pdf net link with
      | error e =>
        have hrec : (processCandidates net parent (a :: cs)).records.length
            ≤ cs.length := by
          cases hc : catchable e with
          | false => simp [processCandidates, hhref, hdl, hc]
          | true => simpa [processCandidates, hhref, hdl, hc] using ihle
        refine ⟨Nat.le_succ_of_le hrec, ?_, ?_⟩
        · intro h; simp only [List.length_cons] at h; omega
        · intro h
          obtain ⟨l, hl, hok⟩ := h a (List.mem_cons_self a cs)
          rw [hhref] at hl
          cases hl
          rw [hdl] at hok
          simp [Except.isOk, Except.toBool] at hok
      | ok p =>
        have hrec : (processCandidates net parent (a :: cs)).records
            = { parent_link := parent, pdf_filename := p.1,
                pdf_file_temp := p.2, download_link_text := a.getText,
                download_link := link }
              :: (processCandidates net parent cs).records := by
          simp [processCandidates, hhref, hdl]
        refine ⟨?_, ?_, ?_⟩
        · rw [hrec]; simpa using ihle
        · intro h
          rw [hrec] at h
          simp only [List.length_cons, Nat.succ_inj, ihiff] at h
          intro b hb
          rcases List.mem_cons.mp hb with rfl | hb'
          · exact ⟨link, hhref, by simp [hdl, Except.isOk, Except.toBool]⟩
          · exact h b hb'
        · intro h
          rw [hrec]
          simp only [List.length_cons, Nat.succ_inj, ihiff]
          intro b hb
          exact h b (List.mem_cons_of_mem a hb)

/-- On a single-string node, bs4 `.string` agrees with `.get_text()`. -/
theorem strProp_of_singleString :
    ∀ n : Node, n.isSingleString = true → n.strProp = some n.getText
  | .text s, _ => by simp [Node.strProp, Node.getText]
  | .elem t a [], h => by simp [Node.isSingleString] at h
  | .elem t a [c], h => by
      have hc : c.isSingleString = true := by
        simpa [Node.isSingleString] using h
      have hrec := strProp_of_singleString c hc
      simp [Node.strProp, Node.getText, getTextList, hrec]
  | .elem t a (c1 :: c2 :: cs), h => by simp [Node.isSingleString] at h

/-! ## The claims -/

/-- C1: along any terminating chain of listing pages (each page well formed,
each `rel=next` link pointing at the next page, the last page's pagination
list holding no `rel=next` anchor), `scrape_interruptions` yields exactly the
per-page records concatenated in site-visit order — one record per qualifying
heading, in document order — and the total walk length is the sum of the
per-page heading counts. -/
theorem walk_chain_records (net : Net) (parse : HtmlParser) (u : String)
    (rest : List String) (fuel : Nat)
    (hchain : goodChain net parse (u :: rest) = true)
    (hfuel : rest.length + 1 ≤ fuel) :
    scrape_interruptions net parse fuel u
      = ⟨((u :: rest).map fun x => pageRecords (soupOf net parse x)).flatten,
          [], none⟩
    ∧ (scrape_interruptions net parse fuel u).records.length
      = ((u :: rest).map
          fun x => (headingsOf (soupOf net parse x)).length).sum := by
  have h := goodChain_walk rest u fuel hchain hfuel
  refine ⟨h, ?_⟩
  rw [h]
  simp [List.length_flatten, List.map_map, pageRecords, Function.comp_def,
    List.length_map]

/-- Witness for C1 on the two-page fixture chain `p1 → p2`. -/
theorem walk_chain_records_witness :
    scrape_interruptions fixNet fixParse 2 "p1"
      = ⟨[⟨some "T1", some "l1"⟩, ⟨some "T2", some "l2"⟩,
          ⟨some "T3", some "l3"⟩], [], none⟩
    ∧ (scrape_interruptions fixNet fixParse 2 "p1").records.length = 3 := by
  have h := walk_chain_records fixNet fixParse "p1" ["p2"] 2 (by decide)
    (by decide)
  exact ⟨h.1.trans (by decide), h.2.trans (by decide)⟩

/-- C2 (counterexample): for a URL that redirects, the `RequestError` raised
by `download_pdf` records the URL the caller passed in (`redir/a.pdf`), not
the effective URL the response reports (`redir/b.pdf`). -/
theorem downloadPdf_requestError_url_cx :
    download_pdf fixNet "redir/a.pdf"
      = .error (.requestError "redir/a.pdf" 404 "Not Found")
    ∧ (fixNet "redir/a.pdf").effectiveUrl = "redir/b.pdf"
    ∧ ("redir/a.pdf" : String) ≠ "redir/b.pdf" :=
  ⟨by rfl, by rfl, by decide⟩

/-- C2 (amended): on a non-200 response, `download_pdf` raises a
`RequestError` carrying the response's status and reason, but the URL it
records is the caller's argument, not the effective URL after redirects. -/
theorem downloadPdf_requestError_caller_url (net : Net) (url seg : String)
    (hseg : lastSegment url = some seg)
    (hfail : (net url).statusCode ≠ 200) :
    download_pdf net url
      = .error (.requestError url (net url).statusCode (net url).reason) :=
  download_pdf_status_err hseg hfail

/-- Witness for C2 (amended) at the fixture URL `site/err.pdf`. -/
theorem downloadPdf_requestError_caller_url_witness :
    download_pdf fixNet "site/err.pdf"
      = .error (.requestError "site/err.pdf" 404 "Not Found") :=
  (downloadPdf_requestError_caller_url fixNet "site/err.pdf" "err.pdf" rfl
    (by decide)).trans (by rfl)

/-- C3 (counterexample): on a listing page with no pagination list (`p3`)
the walk ends with an `AttributeError` instead of terminating cleanly, and on
a page with no `main` region (`p4`) it raises `AttributeError` as well —
absent containers are errors, not zero matches. -/
theorem walk_absent_container_cx :
    (scrape_interruptions fixNet fixParse 1 "p3").err
      = some (ScrapeErr.attributeError "find")
    ∧ (scrape_interruptions fixNet fixParse 1 "p4").err
      = some (ScrapeErr.attributeError "find_all") :=
  ⟨by decide, by decide⟩

/-- C3 (amended): when the pagination list is present but holds no `rel=next`
anchor the sequence terminates cleanly after the page's records; but when the
`main` region is absent the walker raises `AttributeError` before yielding
anything, and when the pagination list is absent it raises `AttributeError`
after yielding the page's records — absence of a container is an error, not
zero matches. -/
theorem walk_termination_and_absent_containers (net : Net)
    (parse : HtmlParser) (url : String) (fuel : Nat) :
    (pageWellFormed net parse url = true →
      (relNextOf (soupOf net parse url)).isNone = true →
      scrape_interruptions net parse (fuel + 1) url
        = ⟨pageRecords (soupOf net parse url), [], none⟩)
    ∧ ((net url).statusCode = 200 →
        soupFind (soupOf net parse url) isMain = none →
        scrape_interruptions net parse (fuel + 1) url
          = ⟨[], [], some (.attributeError "find_all")⟩)
    ∧ (∀ m, (net url).statusCode = 200 →
        soupFind (soupOf net parse url) isMain = some m →
        (∀ n ∈ headingsOf (soupOf net parse url),
            (n.findIn isAnchor).isSome = true) →
        soupFind (soupOf net parse url) isPaginationUl = none →
        scrape_interruptions net parse (fuel + 1) url
          = ⟨pageRecords (soupOf net parse url), [],
              some (.attributeError "find")⟩) :=
  ⟨fun hwf hnone => scrape_last fuel hwf hnone,
   fun h200 hmain => scrape_noMain fuel h200 hmain,
   fun _ h200 hmain hanch hpag =>
     scrape_noPagination fuel h200 hmain hanch hpag⟩

/-- Witness for C3 (amended) on fixture pages `p2`, `p4` and `p3`. -/
theorem walk_termination_and_absent_containers_witness :
    scrape_interruptions fixNet fixParse 1 "p2"
      = ⟨[⟨some "T3", some "l3"⟩], [], none⟩
    ∧ scrape_interruptions fixNet fixParse 1 "p4"
      = ⟨[], [], some (.attributeError "find_all")⟩
    ∧ scrape_interruptions fixNet fixParse 1 "p3"
      = ⟨[⟨some "T4", some "l4"⟩], [], some (.attributeError "find")⟩ := by
  refine ⟨?_, ?_, ?_⟩
  · exact ((walk_termination_and_absent_containers fixNet fixParse "p2" 0).1
      (by decide) (by decide)).trans (by decide)
  · exact ((walk_termination_and_absent_containers fixNet fixParse "p4" 0).2.1
      (by decide) (by rfl)).trans (by decide)
  · exact ((walk_termination_and_absent_containers fixNet fixParse "p3" 0).2.2
      (.elem "main" [] [fixHeading "l4" "T4"]) (by decide) (by rfl)
      (by decide) (by rfl)).trans (by decide)

/-- C4: a candidate whose download fails with a catchable error
(`RequestError` or `WrongContentType`) is logged and skipped, and the walk
continues through the remaining candidates; the failure never reaches the
caller — the result's error comes only from the candidates after it. -/
theorem attachments_skip_failed_candidate (net : Net) (parse : HtmlParser)
    (url link : String) (pre post : List Node) (a : Node) (e : ScrapeErr)
    (h200 : (net url).statusCode = 200)
    (hcands : candidatesOf (soupOf net parse url) = pre ++ a :: post)
    (hhref : a.attr "href" = some link)
    (hdl : download_pdf net link = .error e)
    (hcatch : catchable e = true)
    (hpre : (processCandidates net url pre).err = none) :
    scrape_interruption_attachments net parse url
      = ⟨(processCandidates net url pre).records
            ++ (processCandidates net url post).records,
          (processCandidates net url pre).logs
            ++ ("Error: " ++ e.toStr) :: (processCandidates net url post).logs,
          (processCandidates net url post).err⟩ := by
  rw [attachments_eq h200, hcands, proc_append pre (a :: post) hpre]
  simp [processCandidates, hhref, hdl, hcatch]

/-- Witness for C4: on detail page `d1` the first candidate's non-PDF
response is logged and skipped, and both remaining candidates still yield. -/
theorem attachments_skip_failed_candidate_witness :
    scrape_interruption_attachments fixNet fixParse "d1"
      = ⟨[⟨"d1", "ok1.pdf", ⟨[1, 2, 3], 0⟩, "Good", "site/ok1.pdf"⟩,
          ⟨"d1", "ok2.pdf", ⟨[], 0⟩, "Archive", "site/ok2.pdf"⟩],
         ["Error: File is not a PDF"], none⟩ := by
  have h := attachments_skip_failed_candidate fixNet fixParse "d1"
    "site/bad.html" []
    [docIconAnchor "site/ok1.pdf" "Good", downloadAnchor "site/ok2.pdf" "Archive"]
    (docIconAnchor "site/bad.html" "Bad")
    (.wrongContentType "File is not a PDF" "site/bad-eff.html" "text/html")
    rfl rfl rfl rfl rfl rfl
  exact h.trans (by decide)

/-- C5: the candidates of a detail page are the docicon anchors of the
attachments region followed by the download anchors of the genericintro
region (an absent region contributing none, by `candidatesOf`); the count of
yielded records is at most the candidate count, with equality exactly when
every candidate has an `href` whose download succeeds. -/
theorem attachments_count_bound (net : Net) (parse : HtmlParser)
    (url : String) (h200 : (net url).statusCode = 200) :
    (scrape_interruption_attachments net parse url).records.length
        ≤ (candidatesOf (soupOf net parse url)).length
    ∧ ((scrape_interruption_attachments net parse url).records.length
          = (candidatesOf (soupOf net parse url)).length
        ↔ ∀ a ∈ candidatesOf (soupOf net parse url),
            ∃ l, a.attr "href" = some l
              ∧ (download_pdf net l).isOk = true) := by
  rw [attachments_eq h200]
  exact proc_len _

/-- Witness for C5 on detail page `d1`: two records from three candidates
(strict, since one candidate fails). -/
theorem attachments_count_bound_witness :
    (scrape_interruption_attachments fixNet fixParse "d1").records.length
        ≤ (candidatesOf (soupOf fixNet fixParse "d1")).length
    ∧ (scrape_interruption_attachments fixNet fixParse "d1").records.length = 2
    ∧ (candidatesOf (soupOf fixNet fixParse "d1")).length = 3 :=
  ⟨(attachments_count_bound fixNet fixParse "d1" rfl).1, by decide, by decide⟩

/-- C6: on a 200 response with a declared content type, `download_pdf`
succeeds exactly when the declared type is the literal string
`application/pdf`; any other value raises `WrongContentType` carrying the
message, the effective URL and the offending type. -/
theorem downloadPdf_content_type_check (net : Net) (url seg ct : String)
    (hseg : lastSegment url = some seg)
    (h200 : (net url).statusCode = 200)
    (hct : headerLookup (net url).headers "Content-Type" = some ct) :
    ((download_pdf net url).isOk = true ↔ ct = "application/pdf")
    ∧ (ct ≠ "application/pdf" →
        download_pdf net url
          = .error (.wrongContentType "File is not a PDF"
              (net url).effectiveUrl ct)) := by
  refine ⟨⟨fun hok => ?_, fun heq => ?_⟩,
    fun hne => download_pdf_wrongCT hseg h200 hct hne⟩
  · by_contra hne
    rw [download_pdf_wrongCT hseg h200 hct hne] at hok
    simp [Except.isOk, Except.toBool] at hok
  · subst heq
    rw [download_pdf_ok hseg h200 hct]
    rfl

/-- Witness for C6: `site/ok1.pdf` succeeds; `site/bad.html`, whose declared
type is `text/html`, raises `WrongContentType`. -/
theorem downloadPdf_content_type_check_witness :
    (download_pdf fixNet "site/ok1.pdf").isOk = true
    ∧ download_pdf fixNet "site/bad.html"
        = .error (.wrongContentType "File is not a PDF" "site/bad-eff.html"
            "text/html") := by
  constructor
  · exact (downloadPdf_content_type_check fixNet "site/ok1.pdf" "ok1.pdf"
      "application/pdf" rfl rfl rfl).1.mpr rfl
  · exact ((downloadPdf_content_type_check fixNet "site/bad.html" "bad.html"
      "text/html" rfl rfl rfl).2 (by decide)).trans (by rfl)

/-- C7: a successful download returns the final URL segment as filename and a
temporary file whose contents are exactly the response's byte stream, rewound
to position 0; the 4096-byte chunking loses nothing (its chunks flatten back
to the stream and each chunk is at most 4096 bytes); an empty stream is the
`body = []` instance, which succeeds with a zero-length file. -/
theorem downloadPdf_stream_roundtrip (net : Net) (url seg : String)
    (hseg : lastSegment url = some seg)
    (h200 : (net url).statusCode = 200)
    (hct : headerLookup (net url).headers "Content-Type"
        = some "application/pdf") :
    download_pdf net url = .ok (seg, ⟨(net url).body, 0⟩)
    ∧ (chunksOf 4096 (net url).body).flatten = (net url).body
    ∧ ∀ c ∈ chunksOf 4096 (net url).body, c.length ≤ 4096 :=
  ⟨download_pdf_ok hseg h200 hct,
   chunksOf_flatten (by norm_num) _,
   fun c hc => chunksOfAux_sizes 4096 _ _ c hc⟩

/-- Witness for C7: a three-byte stream and an empty stream both succeed,
with the file contents equal to the stream and position 0. -/
theorem downloadPdf_stream_roundtrip_witness :
    download_pdf fixNet "site/ok1.pdf" = .ok ("ok1.pdf", ⟨[1, 2, 3], 0⟩)
    ∧ download_pdf fixNet "site/ok2.pdf" = .ok ("ok2.pdf", ⟨[], 0⟩) :=
  ⟨((downloadPdf_stream_roundtrip fixNet "site/ok1.pdf" "ok1.pdf" rfl rfl
      rfl).1).trans (by rfl),
   ((downloadPdf_stream_roundtrip fixNet "site/ok2.pdf" "ok2.pdf" rfl rfl
      rfl).1).trans (by rfl)⟩

/-- C8 (counterexample): on fixture page `p8`, whose qualifying heading holds
text and then an anchor, the emitted record's title is `None` (bs4 `.string`
of a multi-child tag) even though the heading's text content is
`"Foo Bar"` — the title is not the heading's text content. -/
theorem record_title_not_text_cx :
    (scrape_interruptions fixNet fixParse 1 "p8").records.map
        ListingRecord.title = [none]
    ∧ (headingsOf (soupOf fixNet fixParse "p8")).map Node.getText
      = ["Foo Bar"] :=
  ⟨by decide, by decide⟩

/-- C8 (amended): each qualifying heading emits a record whose link is the
`href` of its first contained anchor and whose title is the heading's bs4
`.string` — equal to the heading's text content when the heading's content is
a single (possibly tag-wrapped) string, and `None` otherwise. -/
theorem record_title_is_string_prop (net : Net) (parse : HtmlParser)
    (url : String) (fuel : Nat)
    (hwf : pageWellFormed net parse url = true)
    (hlast : (relNextOf (soupOf net parse url)).isNone = true) :
    (scrape_interruptions net parse (fuel + 1) url).records
        = (headingsOf (soupOf net parse url)).map recordOf
    ∧ ∀ h ∈ headingsOf (soupOf net parse url),
        Node.isSingleString h = true → h.strProp = some h.getText := by
  constructor
  · rw [scrape_last fuel hwf hlast]
    rfl
  · intro h _ hs
    exact strProp_of_singleString h hs

/-- Witness for C8 (amended) on fixture page `p2`, whose heading wraps a
single anchor around a single string. -/
theorem record_title_is_string_prop_witness :
    (scrape_interruptions fixNet fixParse 1 "p2").records
      = [⟨some "T3", some "l3"⟩] := by
  have h := record_title_is_string_prop fixNet fixParse "p2" 0 (by decide)
    (by decide)
  exact h.1.trans (by decide)

/-- C9: when the fetch of a listing page along the chain fails, the walker
prints exactly one line, `"Error: "` followed by `"{reason} ({code}) on
{url}"`, re-raises the same `RequestError`, and yields records only from the
pages before the failing one (the `RequestError.__str__` format is the second
conjunct). -/
theorem walk_aborts_on_fetch_error (net : Net) (parse : HtmlParser)
    (u : String) (rest : List String) (fuel : Nat)
    (hchain : badChain net parse (u :: rest) = true)
    (hfuel : rest.length + 1 ≤ fuel) :
    scrape_interruptions net parse fuel u
      = ⟨(((u :: rest).dropLast).map
            fun x => pageRecords (soupOf net parse x)).flatten,
          ["Error: " ++ (failErr net (chainLast u rest)).toStr],
          some (.requestError (net (chainLast u rest)).effectiveUrl
              (net (chainLast u rest)).statusCode
              (net (chainLast u rest)).reason)⟩
    ∧ ∀ url code reason,
        (ScrapeErr.requestError url code reason).toStr
          = reason ++ " (" ++ toString code ++ ") on " ++ url :=
  ⟨badChain_walk rest u fuel hchain hfuel, fun _ _ _ => rfl⟩

/-- Witness for C9 on the fixture chain `pb1 → bad`, whose second fetch
returns 404: one page of records, one formatted error line, the error
re-raised. -/
theorem walk_aborts_on_fetch_error_witness :
    scrape_interruptions fixNet fixParse 2 "pb1"
      = ⟨[⟨some "TB", some "lb"⟩],
          ["Error: Not Found (404) on bad-eff"],
          some (.requestError "bad-eff" 404 "Not Found")⟩ := by
  have h := walk_aborts_on_fetch_error fixNet fixParse "pb1" ["bad"] 2
    (by decide) (by decide)
  exact h.1.trans (by decide)

/-- C10: a 200 response with no `Content-Type` header makes `download_pdf`
raise a `KeyError` — outside the catchable taxonomy — so an extractor
candidate hitting it is not skipped: the whole extraction aborts, keeping
only the records of the candidates before it. -/
theorem missing_content_type_keyerror (net : Net) (parse : HtmlParser)
    (url purl seg : String) (pre post : List Node) (a : Node)
    (hseg : lastSegment url = some seg)
    (h200 : (net url).statusCode = 200)
    (hhdr : headerLookup (net url).headers "Content-Type" = none)
    (hp200 : (net purl).statusCode = 200)
    (hcands : candidatesOf (soupOf net parse purl) = pre ++ a :: post)
    (hhref : a.attr "href" = some url)
    (hpre : (processCandidates net purl pre).err = none) :
    download_pdf net url = .error (.keyError "Content-Type")
    ∧ catchable (.keyError "Content-Type") = false
    ∧ scrape_interruption_attachments net parse purl
        = ⟨(processCandidates net purl pre).records,
            (processCandidates net purl pre).logs,
            some (.keyError "Content-Type")⟩ := by
  have hdl := download_pdf_keyErr hseg h200 hhdr
  refine ⟨hdl, rfl, ?_⟩
  rw [attachments_eq hp200, hcands, proc_append pre (a :: post) hpre]
  simp [processCandidates, hhref, hdl, catchable]

/-- Witness for C10 on detail page `d2`: the header-less second candidate
aborts the extraction after the first candidate's record. -/
theorem missing_content_type_keyerror_witness :
    scrape_interruption_attachments fixNet fixParse "d2"
      = ⟨[⟨"d2", "ok1.pdf", ⟨[1, 2, 3], 0⟩, "Good", "site/ok1.pdf"⟩], [],
          some (.keyError "Content-Type")⟩ := by
  have h := missing_content_type_keyerror fixNet fixParse "site/nohdr.pdf"
    "d2" "nohdr.pdf" [docIconAnchor "site/ok1.pdf" "Good"]
    [docIconAnchor "site/ok2.pdf" "Good2"]
    (docIconAnchor "site/nohdr.pdf" "NoHeader")
    rfl rfl rfl rfl rfl rfl rfl
  exact h.2.2.trans (by decide)

end Stima
